import Mathlib

/-!
Verification of the daily-view timeline logic of `my-time-keeper`
(`src/components/views/dailyView.tsx`), shallowly embedded in Lean.

Conventions of the embedding:
* JavaScript numbers used for layout percentages are embedded as exact
  rationals (`ℚ`); minute counts are `Nat`.
* `new Date(isoString)` applied to a local date-time string
  `"YYYY-MM-DDTHH:MM"` followed by `.getHours() / .getMinutes()` is
  embedded as a parser extracting the hour/minute fields; an invalid
  date (JS `NaN` results) is embedded as `none`.
* DOM and timer effects (scrolling, `classList`, `setTimeout`,
  `setInterval`) are embedded as explicit state passing over small
  state records, with the real-time clock supplied as a parameter.
-/

namespace DailyViewModel

/-- The `priorityLevel: 1 | 2 | 3` field from `dailyView.tsx` (1 = High, 2 = Moderate,
3 = Low), embedded as a three-constructor inductive. -/
inductive PriorityLevel where
  | p1  -- High priority
  | p2  -- Moderate priority
  | p3  -- Low priority
deriving DecidableEq, Repr

/-- The `id: string | number` field of the `DailyEvent` interface. -/
def EventId := String ⊕ Nat
deriving DecidableEq, Repr

/-- The `DailyEvent` interface of `dailyView.tsx`: id, title, optional
description, start/end local date-time strings, optional color, priority. -/
structure DailyEvent where
  id : EventId
  title : String
  description : Option String
  start : String
  «end» : String
  color : Option String
  priorityLevel : PriorityLevel
deriving DecidableEq, Repr

/-! Parsing local date-time strings.

`getMinutesOfDay` in the source does `new Date(isoString)` and reads
`getHours() * 60 + getMinutes()`.  For a well-formed local date-time
string `"YYYY-MM-DDTHH:MM"` this yields `HH * 60 + MM`; for a string
whose time fields are missing or out of range the `Date` is invalid and
every field read yields `NaN`, embedded here as `none`. -/

/-- Parse a non-empty all-digit character list as a decimal `Nat`;
`none` on empty input or any non-digit. -/
def parseDigits (cs : List Char) : Option Nat :=
  if cs ≠ [] ∧ cs.all Char.isDigit then
    some (cs.foldl (fun n c => n * 10 + (c.toNat - 48)) 0)
  else none

/-- The characters after the first `'T'` of a local date-time string. -/
def timePart (s : String) : List Char :=
  (s.toList.dropWhile (fun c => c ≠ 'T')).drop 1

/-- Parse the `"HH:MM"` portion of a time string into hour and minute,
validating the ranges a JS `Date` accepts (hour below 24, minute below
60). -/
def parseHM (cs : List Char) : Option (Nat × Nat) :=
  let h := cs.takeWhile (fun c => c ≠ ':')
  let rest := (cs.dropWhile (fun c => c ≠ ':')).drop 1
  let m := rest.takeWhile (fun c => c ≠ ':')
  match parseDigits h, parseDigits m with
  | some hh, some mm => if hh < 24 ∧ mm < 60 then some (hh, mm) else none
  | _, _ => none

/-- Embedding of `getMinutesOfDay` from `dailyView.tsx`: convert an ISO local
date-time string into minutes of the day,
`dateObj.getHours() * 60 + dateObj.getMinutes()`; `none` embeds the
invalid-date (`NaN`) outcome. -/
def getMinutesOfDay (isoString : String) : Option Nat :=
  (parseHM (timePart isoString)).map (fun p => p.1 * 60 + p.2)

/-! Formatting helpers (lines 337-362 of the source). -/

/-- Embedding of `formatHourLabel` from `dailyView.tsx`: convert a 24-hour integer
into `"1AM"`, `"12PM"`, etc.  `hour = hour24 % 12`, replaced by `12`
when zero. -/
def formatHourLabel (hour24 : Nat) : String :=
  let ampm := if hour24 < 12 then "AM" else "PM"
  let hour := hour24 % 12
  let hour := if hour = 0 then 12 else hour
  toString hour ++ ampm

/-- Embedding of `.toString().padStart(2, '0')` applied to a minute count. -/
def padTwo (n : Nat) : String :=
  let s := toString n
  if s.length < 2 then "0" ++ s else s

/-- Embedding of `formatTime` from `dailyView.tsx` on the hour/minute fields of an
already-parsed `Date`: `"h:mm AM/PM"`, with `hour12 = hours % 12 || 12`. -/
def formatTime (hours minutes : Nat) : String :=
  let ampm := if hours < 12 then "AM" else "PM"
  let hour12 := if hours % 12 = 0 then 12 else hours % 12
  toString hour12 ++ ":" ++ padTwo minutes ++ " " ++ ampm

/-- Embedding of `formatTimeRange` from `dailyView.tsx`: parse both endpoints and
produce `"h:mm AM/PM - h:mm AM/PM"`; `none` embeds the invalid-date
outcome. -/
def formatTimeRange (startIso endIso : String) : Option String :=
  match parseHM (timePart startIso), parseHM (timePart endIso) with
  | some s, some e =>
      some (formatTime s.1 s.2 ++ " - " ++ formatTime e.1 e.2)
  | _, _ => none

/-! Timeline block layout.

In the events layer (lines 223-245) each event gets
`startPct = (startMinutes / 1440) * 100`,
`endPct = (endMinutes / 1440) * 100`, and is styled with
`top: startPct%` and `height: (endPct - startPct)%`. -/

/-- The total number of minutes in a day (`totalDayMinutes` in the
source). -/
def totalDayMinutes : ℚ := 1440

/-- The `top`/`height` percentage pair of a rendered event block,
`none` when either endpoint fails to parse (the JS code would style
with `NaN%`). -/
def renderBlock (e : DailyEvent) : Option (ℚ × ℚ) :=
  match getMinutesOfDay e.start, getMinutesOfDay e.«end» with
  | some startMinutes, some endMinutes =>
      let startPct : ℚ := (startMinutes : ℚ) / totalDayMinutes * 100
      let endPct : ℚ := (endMinutes : ℚ) / totalDayMinutes * 100
      some (startPct, endPct - startPct)
  | _, _ => none

/-- The blocks rendered for an event list (`events.map(...)` in the
events layer). -/
def renderBlocks (events : List DailyEvent) : List (Option (ℚ × ℚ)) :=
  events.map renderBlock

/-! Priority grouping.

Lines 131-135: `priorityMap = {1: [], 2: [], 3: []}` followed by
`events.forEach((evt) => priorityMap[evt.priorityLevel].push(evt))`. -/

/-- One `forEach` step: push the event onto the bucket selected by its
priority level. -/
def pushByPriority (m : List DailyEvent × List DailyEvent × List DailyEvent)
    (evt : DailyEvent) : List DailyEvent × List DailyEvent × List DailyEvent :=
  match evt.priorityLevel with
  | .p1 => (m.1 ++ [evt], m.2.1, m.2.2)
  | .p2 => (m.1, m.2.1 ++ [evt], m.2.2)
  | .p3 => (m.1, m.2.1, m.2.2 ++ [evt])

/-- Embedding of `priorityMap` from `dailyView.tsx`: the three priority buckets
(high, moderate, low) built by iterating over the input list. -/
def priorityMap (events : List DailyEvent) :
    List DailyEvent × List DailyEvent × List DailyEvent :=
  events.foldl pushByPriority ([], [], [])

/-! Current-time marker and the 60-second interval.

Lines 56, 70-97, 260-268.  `computeNowFraction` reads the wall clock;
here the clock value (minutes since local midnight) is a parameter.
`setInterval(..., 60_000)` is installed only when `isToday`; each firing
is embedded as a `minuteTick` with the clock value at that moment. -/

/-- Embedding of `computeNowFraction` from `dailyView.tsx`:
`minutesSinceMidnight / 1440`, with the wall-clock minutes supplied as
a parameter. -/
def computeNowFraction (minutesSinceMidnight : Nat) : ℚ :=
  (minutesSinceMidnight : ℚ) / 1440

/-- Embedding of `date === new Date().toISOString().split('T')[0]` with the
real current date string supplied as a parameter. -/
def isToday (date todayDate : String) : Bool :=
  date == todayDate

/-- The component state relevant to the now-marker: the viewed date,
the real current date, and the `nowFraction` state variable. -/
structure MarkerState where
  date : String
  todayDate : String
  nowFraction : ℚ
deriving DecidableEq, Repr

/-- The initial state: `useState(() => computeNowFraction())` at mount
time, with `n0` the wall-clock minutes at mount. -/
def initMarkerState (date todayDate : String) (n0 : Nat) : MarkerState :=
  ⟨date, todayDate, computeNowFraction n0⟩

/-- One firing of the 60-second interval: `setNowFraction(computeNowFraction())`.
The interval is only installed when `isToday`, so the state is unchanged
otherwise. -/
def minuteTick (s : MarkerState) (nowMinutes : Nat) : MarkerState :=
  if isToday s.date s.todayDate then
    { s with nowFraction := computeNowFraction nowMinutes }
  else s

/-- Run the interval through a list of firings; `ns` holds the
wall-clock minutes at each successive firing. -/
def runTicks (s : MarkerState) (ns : List Nat) : MarkerState :=
  ns.foldl minuteTick s

/-- The rendered current-time marker (lines 260-268): rendered at
`top: nowFraction * 100 %` only when `isToday`, otherwise absent. -/
def nowMarkerTop (s : MarkerState) : Option ℚ :=
  if isToday s.date s.todayDate then some (s.nowFraction * 100) else none

/-! Scrolling to the current time.

`scrollToNow` (lines 60-68): bail out when the container ref is null or
the viewed date is not today; otherwise set
`scrollTop = max(0, min((minutesSinceMidnight / 1440) * maxScroll, maxScroll))`
with `maxScroll = scrollHeight - clientHeight`. -/

/-- The scroll-container DOM fields `scrollToNow` reads and writes. -/
structure ScrollContainer where
  scrollHeight : ℚ
  clientHeight : ℚ
  scrollTop : ℚ
deriving DecidableEq, Repr

/-- Embedding of `scrollToNow` from `dailyView.tsx`.  The container ref is an
`Option` (null when unmounted); `todayFlag` is the `isToday` value in
scope; `nowMinutes` is the wall-clock `minutesSinceMidnight`. -/
def scrollToNow (todayFlag : Bool) (container : Option ScrollContainer)
    (nowMinutes : Nat) : Option ScrollContainer :=
  match container with
  | none => none
  | some c =>
    if !todayFlag then some c
    else
      let maxScroll := c.scrollHeight - c.clientHeight
      let scrollPosition := ((nowMinutes : ℚ) / 1440) * maxScroll
      some { c with scrollTop := max 0 (min scrollPosition maxScroll) }

/-- The mount effect of lines 70-74: `if (isToday) scrollToNow()`. -/
def mountScrollEffect (todayFlag : Bool) (container : Option ScrollContainer)
    (nowMinutes : Nat) : Option ScrollContainer :=
  if todayFlag then scrollToNow todayFlag container nowMinutes else container

/-- The "Today" button (line 172): `onClick={scrollToNow}`. -/
def todayButtonClick (todayFlag : Bool) (container : Option ScrollContainer)
    (nowMinutes : Nat) : Option ScrollContainer :=
  scrollToNow todayFlag container nowMinutes

/-! Priority-entry clicks: scroll and highlight.

`handlePriorityClick` (lines 105-115): look up the event's `<li>` in
`eventRefs`; when both it and the scroll container exist, scroll it
into view and add the highlight ring classes, scheduling their removal
2000 ms later; otherwise do nothing. -/

/-- The UI state touched by `handlePriorityClick`: the set of timeline
entries currently carrying the ring classes, and the log of
`scrollIntoView` calls. -/
structure ClickUIState where
  highlighted : List EventId
  scrolledTo : List EventId
deriving DecidableEq, Repr

/-- Embedding of `handlePriorityClick` from `dailyView.tsx` as a state update:
`mounted` is the set of ids present in `eventRefs.current`,
`hasContainer` whether `scrollContainerRef.current` is non-null.  When
the guard fails the state is returned unchanged. -/
def handlePriorityClick (mounted : List EventId) (hasContainer : Bool)
    (id : EventId) (s : ClickUIState) : ClickUIState :=
  if id ∈ mounted ∧ hasContainer = true then
    { highlighted := id :: s.highlighted, scrolledTo := id :: s.scrolledTo }
  else s

/-! Highlight timing.

Each click on a mounted entry adds the ring classes at the click time
and schedules a `classList.remove` 2000 ms later via `setTimeout`.
`classList` semantics: `add` is idempotent, `remove` deletes the
classes whenever it fires.  Hence at time `t` an element carries the
ring classes iff some click on it has happened (add at the click time)
and the most recent add is strictly more recent than every removal
fired so far (a removal and an add at the same instant leave the
classes removed, matching a timer firing after the same-instant click
handler).  A click trace is a list of `(time in ms, event id)` pairs,
each with a mounted target. -/

/-- The times of the clicks targeting `id` in a click trace.  Each
such click does `classList.add` at its own time. -/
def clickTimes (clicks : List (Nat × EventId)) (id : EventId) : List Nat :=
  (clicks.filter (fun c => decide (c.2 = id))).map Prod.fst

/-- The `classList.add` instants on `id` that have occurred by time `t`. -/
def addTimes (clicks : List (Nat × EventId)) (id : EventId) (t : Nat) :
    List Nat :=
  (clickTimes clicks id).filter (fun a => a ≤ t)

/-- The `classList.remove` instants on `id` (each click's `setTimeout`
fires 2000 ms after it) that have occurred by time `t`. -/
def remTimes (clicks : List (Nat × EventId)) (id : EventId) (t : Nat) :
    List Nat :=
  ((clickTimes clicks id).map (fun a => a + 2000)).filter (fun r => r ≤ t)

/-- Whether the timeline entry for `id` carries the highlight ring
classes at time `t` (milliseconds), given the click trace `clicks`:
some `add` has occurred, and the most recent `add` is strictly more
recent than every `remove` fired so far (a `remove` at the same
instant as an `add` leaves the classes removed). -/
def highlightedAt (clicks : List (Nat × EventId)) (id : EventId)
    (t : Nat) : Bool :=
  !(addTimes clicks id t).isEmpty &&
    (remTimes clicks id t).all
      (fun r => r < (addTimes clicks id t).foldl max 0)

/-- A concrete event used to instantiate universally quantified
theorems (the "Breakfast" sample event of `src/app/daily/page.tsx`). -/
def sampleBreakfast : DailyEvent :=
  { id := Sum.inr 1
    title := "Breakfast"
    description := some "Eggs and toast"
    start := "2022-01-22T06:00"
    «end» := "2022-01-22T07:00"
    color := none
    priorityLevel := .p1 }

/-! Helper lemmas. -/

lemma parseHM_bounds {cs : List Char} {p : Nat × Nat}
    (h : parseHM cs = some p) : p.1 < 24 ∧ p.2 < 60 := by
  unfold parseHM at h
  simp only [] at h
  split at h
  · split_ifs at h with hcond
    rw [Option.some.injEq] at h
    subst h
    exact hcond
  · exact Option.noConfusion h

lemma getMinutesOfDay_lt_1440 {s : String} {n : Nat}
    (h : getMinutesOfDay s = some n) : n < 1440 := by
  unfold getMinutesOfDay at h
  cases hp : parseHM (timePart s) with
  | none => simp [hp] at h
  | some p =>
    obtain ⟨h1, h2⟩ := parseHM_bounds hp
    simp only [hp, Option.map_some', Option.some.injEq] at h
    omega

lemma le_foldl_max_init (l : List Nat) (b : Nat) : b ≤ l.foldl max b := by
  induction l generalizing b with
  | nil => simp
  | cons a l ih => exact le_trans (le_max_left b a) (ih (max b a))

lemma le_foldl_max_of_mem {l : List Nat} {x : Nat} (b : Nat)
    (hx : x ∈ l) : x ≤ l.foldl max b := by
  induction l generalizing b with
  | nil => cases hx
  | cons a l ih =>
    rcases List.mem_cons.mp hx with h | h
    · subst h
      exact le_trans (le_max_right b x) (le_foldl_max_init l (max b x))
    · exact ih (max b a) h

lemma foldl_max_le {l : List Nat} {b n : Nat} (hb : b ≤ n)
    (hl : ∀ x ∈ l, x ≤ n) : l.foldl max b ≤ n := by
  induction l generalizing b with
  | nil => simpa using hb
  | cons a l ih =>
    simp only [List.foldl_cons]
    exact ih (max_le hb (hl a (List.mem_cons_self a l)))
      (fun x hx => hl x (List.mem_cons_of_mem a hx))

lemma foldl_pushByPriority (events : List DailyEvent)
    (a b c : List DailyEvent) :
    events.foldl pushByPriority (a, b, c) =
      (a ++ events.filter (fun e => decide (e.priorityLevel = .p1)),
       b ++ events.filter (fun e => decide (e.priorityLevel = .p2)),
       c ++ events.filter (fun e => decide (e.priorityLevel = .p3))) := by
  induction events generalizing a b c with
  | nil => simp
  | cons e es ih =>
    cases hp : e.priorityLevel with
    | p1 =>
      simp [List.foldl_cons, pushByPriority, hp, ih, List.filter_cons,
        List.append_assoc]
    | p2 =>
      simp [List.foldl_cons, pushByPriority, hp, ih, List.filter_cons,
        List.append_assoc]
    | p3 =>
      simp [List.foldl_cons, pushByPriority, hp, ih, List.filter_cons,
        List.append_assoc]

lemma priorityMap_eq_filter (events : List DailyEvent) :
    priorityMap events =
      (events.filter (fun e => decide (e.priorityLevel = .p1)),
       events.filter (fun e => decide (e.priorityLevel = .p2)),
       events.filter (fun e => decide (e.priorityLevel = .p3))) := by
  simpa using foldl_pushByPriority events [] [] []

lemma padTwo_length_of_lt {m : Nat} (hm : m < 60) : (padTwo m).length = 2 := by
  interval_cases m <;> decide

/-! Claim theorems. -/

/-- C6: `formatHourLabel` maps a 24-hour integer to a 12-hour label
with AM/PM suffix; midnight and noon render as "12".  In particular
`formatHourLabel 0 = "12AM"`, `formatHourLabel 12 = "12PM"` and
`formatHourLabel 13 = "1PM"`, and for every hour below 24 the label is
a 12-hour number (between 1 and 12, equal to 12 exactly when the hour
is a multiple of 12) followed by "AM" before noon and "PM" from noon
on. -/
theorem C6_formatHourLabel_twelve_hour :
    formatHourLabel 0 = "12AM" ∧ formatHourLabel 12 = "12PM" ∧
    formatHourLabel 13 = "1PM" ∧
    (∀ h : Nat, h < 24 → ∃ n : Nat, n < 13 ∧ 1 ≤ n ∧ (n = 12 ↔ h % 12 = 0) ∧
      formatHourLabel h = toString n ++ (if h < 12 then "AM" else "PM")) := by
  refine ⟨by decide, by decide, by decide, ?_⟩
  intro h hh
  refine ⟨if h % 12 = 0 then 12 else h % 12, ?_, ?_, ?_, rfl⟩
  · split <;> omega
  · split <;> omega
  · constructor
    · intro hn
      by_contra hc
      rw [if_neg hc] at hn
      omega
    · intro hz
      rw [if_pos hz]

/-- C7: `formatTimeRange` formats a start/end pair of ISO local
date-time strings as "h:mm AM/PM - h:mm AM/PM" on a 12-hour clock with
zero-padded minutes and no leading zero on the hour; in particular the
pair ("2022-01-22T06:00", "2022-01-22T07:00") renders as
"6:00 AM - 7:00 AM".  The general clause: for in-range hours and
minutes, `formatTime` produces a 12-hour hour (1..12, no leading
zero), a colon, a two-character zero-padded minute field, and the
AM/PM suffix. -/
theorem C7_formatTimeRange_format :
    formatTimeRange "2022-01-22T06:00" "2022-01-22T07:00"
      = some "6:00 AM - 7:00 AM" ∧
    (∀ h : Nat, h < 24 → ∀ m : Nat, m < 60 → ∃ n : Nat, n < 13 ∧ 1 ≤ n ∧
      formatTime h m = toString n ++ ":" ++ padTwo m ++ " " ++
        (if h < 12 then "AM" else "PM") ∧
      (padTwo m).length = 2) := by
  refine ⟨by decide, ?_⟩
  intro h hh m hm
  refine ⟨if h % 12 = 0 then 12 else h % 12, ?_, ?_, rfl, padTwo_length_of_lt hm⟩
  · split <;> omega
  · split <;> omega

/-- C1: every event in the input list is rendered as a timeline block
whose top offset is (start-minutes-of-day / 1440) × 100 percent and
whose height is ((end-minutes-of-day − start-minutes-of-day) / 1440) ×
100 percent, the minutes of day being read from the event's start and
end date-time strings. -/
theorem C1_event_block_geometry (events : List DailyEvent) (e : DailyEvent)
    (he : e ∈ events) (s en : Nat)
    (hs : getMinutesOfDay e.start = some s)
    (hen : getMinutesOfDay e.«end» = some en) :
    renderBlock e ∈ renderBlocks events ∧
    renderBlock e =
      some ((s : ℚ) / 1440 * 100, ((en : ℚ) - (s : ℚ)) / 1440 * 100) := by
  refine ⟨List.mem_map_of_mem renderBlock he, ?_⟩
  unfold renderBlock totalDayMinutes
  rw [hs, hen]
  simp only [Option.some.injEq, Prod.mk.injEq]
  exact ⟨trivial, by ring⟩

/-- C1 witness: the geometry theorem instantiated at the sample
"Breakfast" event (06:00-07:00), giving top 25% and height 25/6 %. -/
theorem C1_event_block_geometry_witness :
    renderBlock sampleBreakfast ∈ renderBlocks [sampleBreakfast] ∧
    renderBlock sampleBreakfast =
      some (((360 : Nat) : ℚ) / 1440 * 100,
        (((420 : Nat) : ℚ) - ((360 : Nat) : ℚ)) / 1440 * 100) :=
  C1_event_block_geometry [sampleBreakfast] sampleBreakfast
    (List.mem_singleton.mpr rfl) 360 420 (by decide) (by decide)

/-- C3: for an event whose start is strictly before its end in minutes
of day (both endpoints parsing within the viewed day), the rendered
top percentage plus height percentage lies within [0, 100] and the
height percentage is nonnegative. -/
theorem C3_block_within_bounds (e : DailyEvent) (s en : Nat)
    (hs : getMinutesOfDay e.start = some s)
    (hen : getMinutesOfDay e.«end» = some en)
    (hlt : s < en) (top height : ℚ)
    (hb : renderBlock e = some (top, height)) :
    0 ≤ top + height ∧ top + height ≤ 100 ∧ 0 ≤ height := by
  have hen1440 : en < 1440 := getMinutesOfDay_lt_1440 hen
  unfold renderBlock totalDayMinutes at hb
  rw [hs, hen] at hb
  simp only [Option.some.injEq, Prod.mk.injEq] at hb
  obtain ⟨htop, hht⟩ := hb
  have hsq : (0 : ℚ) ≤ (s : ℚ) := by positivity
  have hlts : (s : ℚ) ≤ (en : ℚ) := by exact_mod_cast hlt.le
  have hub : (en : ℚ) ≤ 1440 := by exact_mod_cast hen1440.le
  subst htop hht
  refine ⟨by linarith, by linarith, by linarith⟩

lemma renderBlock_sampleBreakfast :
    renderBlock sampleBreakfast = some (25, 25 / 6) := by
  have h1 : getMinutesOfDay sampleBreakfast.start = some 360 := by decide
  have h2 : getMinutesOfDay sampleBreakfast.«end» = some 420 := by decide
  unfold renderBlock totalDayMinutes
  rw [h1, h2]
  simp only [Option.some.injEq, Prod.mk.injEq]
  norm_num

/-- C3 witness: the bounds theorem instantiated at the sample
"Breakfast" event, whose block is (top 25, height 25/6). -/
theorem C3_block_within_bounds_witness :
    0 ≤ (25 : ℚ) + 25 / 6 ∧ (25 : ℚ) + 25 / 6 ≤ 100 ∧ 0 ≤ (25 / 6 : ℚ) :=
  C3_block_within_bounds sampleBreakfast 360 420 (by decide) (by decide)
    (by decide) 25 (25 / 6) renderBlock_sampleBreakfast

/-- C2: the grouping of the input list into the three priority buckets
is a total, disjoint, order-preserving cover: an input event lies in a
bucket exactly when that bucket matches its priority level (hence in
exactly one bucket, the three levels being distinct constructors), the
buckets contain no event outside the input, and each bucket is a
sublist of the input, so relative order within a bucket equals
relative order in the input. -/
theorem C2_priority_grouping_partition (events : List DailyEvent) :
    (∀ e ∈ events,
      (e ∈ (priorityMap events).1 ↔ e.priorityLevel = .p1) ∧
      (e ∈ (priorityMap events).2.1 ↔ e.priorityLevel = .p2) ∧
      (e ∈ (priorityMap events).2.2 ↔ e.priorityLevel = .p3)) ∧
    (∀ e : DailyEvent,
      e ∈ (priorityMap events).1 ∨ e ∈ (priorityMap events).2.1 ∨
        e ∈ (priorityMap events).2.2 → e ∈ events) ∧
    (priorityMap events).1.Sublist events ∧
    (priorityMap events).2.1.Sublist events ∧
    (priorityMap events).2.2.Sublist events := by
  rw [priorityMap_eq_filter]
  refine ⟨?_, ?_, List.filter_sublist events, List.filter_sublist events,
    List.filter_sublist events⟩
  · intro e he
    refine ⟨?_, ?_, ?_⟩ <;> simp [List.mem_filter, he]
  · intro e h
    rcases h with h | h | h <;> exact (List.mem_filter.mp h).1

/-- C4: while mounted, if the viewed date equals the real current
date, the current-time marker renders at (current-minutes-of-day /
1440) × 100 percent, where the current minutes are those observed at
the latest firing of the 60-second interval (or at mount when none has
fired); if the viewed date differs from the real current date, no
marker renders no matter how many interval firings have elapsed. -/
theorem C4_now_marker (d td : String) (n0 : Nat) (ns : List Nat) :
    (d = td →
      nowMarkerTop (runTicks (initMarkerState d td n0) ns) =
        some (((ns.getLastD n0 : Nat) : ℚ) / 1440 * 100)) ∧
    (d ≠ td →
      nowMarkerTop (runTicks (initMarkerState d td n0) ns) = none) := by
  constructor
  · intro hd
    subst hd
    have htoday : isToday d d = true := by simp [isToday]
    have hrun : ∀ (ns : List Nat) (n0 : Nat),
        runTicks (initMarkerState d d n0) ns =
          initMarkerState d d (ns.getLastD n0) := by
      intro ns
      induction ns with
      | nil => intro n0; rfl
      | cons n ns ih =>
        intro n0
        have hstep : minuteTick (initMarkerState d d n0) n =
            initMarkerState d d n := by
          simp [minuteTick, initMarkerState, htoday]
        calc runTicks (initMarkerState d d n0) (n :: ns)
            = runTicks (minuteTick (initMarkerState d d n0) n) ns := rfl
          _ = runTicks (initMarkerState d d n) ns := by rw [hstep]
          _ = initMarkerState d d (ns.getLastD n) := ih n
          _ = initMarkerState d d ((n :: ns).getLastD n0) := by
                rw [List.getLastD_cons]
    rw [hrun]
    simp [nowMarkerTop, initMarkerState, computeNowFraction, htoday]
  · intro hd
    have hnot : isToday d td = false := by
      simp [isToday]
      exact hd
    have hrun : ∀ (ns : List Nat),
        runTicks (initMarkerState d td n0) ns = initMarkerState d td n0 := by
      intro ns
      induction ns with
      | nil => rfl
      | cons n ns ih =>
        have hstep : minuteTick (initMarkerState d td n0) n =
            initMarkerState d td n0 := by
          simp [minuteTick, initMarkerState, hnot]
        calc runTicks (initMarkerState d td n0) (n :: ns)
            = runTicks (minuteTick (initMarkerState d td n0) n) ns := rfl
          _ = runTicks (initMarkerState d td n0) ns := by rw [hstep]
          _ = initMarkerState d td n0 := ih
    rw [hrun]
    simp [nowMarkerTop, initMarkerState, hnot]

/-- C9: with the viewed date equal to the current date and the
container mounted, both the mount auto-scroll and the "Today" control
run the same `scrollToNow`, which sets the container scroll position
to (current-minutes-of-day / 1440) × (scrollable height), clamped to
the interval [0, maxScroll], where the scrollable height and maxScroll
are both `scrollHeight - clientHeight`. -/
theorem C9_scroll_to_now_position (c : ScrollContainer) (nowMinutes : Nat) :
    scrollToNow true (some c) nowMinutes =
      some ⟨c.scrollHeight, c.clientHeight,
        max 0 (min (((nowMinutes : ℚ) / 1440) * (c.scrollHeight - c.clientHeight))
          (c.scrollHeight - c.clientHeight))⟩ ∧
    mountScrollEffect true (some c) nowMinutes =
      scrollToNow true (some c) nowMinutes ∧
    todayButtonClick true (some c) nowMinutes =
      scrollToNow true (some c) nowMinutes := by
  refine ⟨?_, rfl, rfl⟩
  simp [scrollToNow]

/-- C10: when the viewed date is not the real current date, pressing
the "Today" control is a no-op: `scrollToNow` returns without touching
the container, whether or not one is mounted. -/
theorem C10_today_noop_when_not_today (container : Option ScrollContainer)
    (nowMinutes : Nat) :
    todayButtonClick false container nowMinutes = container ∧
    scrollToNow false container nowMinutes = container := by
  cases container <;> simp [todayButtonClick, scrollToNow]

/-- C8: a click on a grouped entry whose identifier has no mounted
timeline block leaves the UI state unchanged — no scroll is recorded
and no highlight is applied (and the handler is a total function, so
the view cannot crash). -/
theorem C8_unmounted_click_noop (mounted : List EventId)
    (hasContainer : Bool) (id : EventId) (s : ClickUIState)
    (h : id ∉ mounted) :
    handlePriorityClick mounted hasContainer id s = s := by
  unfold handlePriorityClick
  rw [if_neg]
  intro hc
  exact h hc.1

/-- C8 witness: clicking id 1 with no mounted blocks leaves the empty
UI state unchanged. -/
theorem C8_unmounted_click_noop_witness :
    handlePriorityClick [] true (Sum.inr 1) ⟨[], []⟩ = ⟨[], []⟩ :=
  C8_unmounted_click_noop [] true (Sum.inr 1) ⟨[], []⟩ (by simp)

/-- C5 counterexample: the claim fails when the same event is clicked
twice within 2 seconds.  With clicks on event 1 at 0 ms and at
1000 ms, the 2-second timer of the first click removes the ring
classes at 2000 ms, so at 2500 ms — only 1.5 s after the second
click — the highlight is already gone, though the claim promises it
is removed no earlier than 2 s after that click. -/
theorem C5_highlight_counterexample :
    highlightedAt [(0, (Sum.inr 1 : EventId)), (1000, (Sum.inr 1 : EventId))]
      (Sum.inr 1 : EventId) 2500 = false ∧
    1000 ≤ 2500 ∧ 2500 < 1000 + 2000 := by
  decide

/-- C5 amended: a click at time `tc` on a mounted grouped entry
applies the highlight to its timeline block; the highlight is still
present at every instant less than 2 seconds after the click and is
gone exactly 2 seconds after it, PROVIDED no other click on the same
event happens within 2 seconds before or after `tc` (an earlier
click's pending timer would clear the ring classes early, which is
what the counterexample exhibits).  Highlighting is independent per
event: the highlight state of `id` depends only on the clicks
targeting `id`. -/
theorem C5_highlight_two_seconds (clicks : List (Nat × EventId)) (tc : Nat)
    (id : EventId) (hc : (tc, id) ∈ clicks)
    (hsep : ∀ c ∈ clicks, c.2 = id →
      c.1 = tc ∨ c.1 + 2000 < tc ∨ tc + 2000 < c.1) :
    (∀ t, tc ≤ t → t < tc + 2000 → highlightedAt clicks id t = true) ∧
    highlightedAt clicks id (tc + 2000) = false ∧
    (∀ (clicks2 : List (Nat × EventId)) (t : Nat),
      clicks.filter (fun c => decide (c.2 = id)) =
        clicks2.filter (fun c => decide (c.2 = id)) →
      highlightedAt clicks id t = highlightedAt clicks2 id t) := by
  have htc_ts : tc ∈ clickTimes clicks id := by
    have hmemF : (tc, id) ∈ clicks.filter (fun c => decide (c.2 = id)) :=
      List.mem_filter.mpr ⟨hc, by simp⟩
    exact List.mem_map_of_mem Prod.fst hmemF
  have hts : ∀ x ∈ clickTimes clicks id,
      x = tc ∨ x + 2000 < tc ∨ tc + 2000 < x := by
    intro x hx
    obtain ⟨c, hcF, hcx⟩ := List.mem_map.mp hx
    obtain ⟨hcl, hcid⟩ := List.mem_filter.mp hcF
    have hcid2 : c.2 = id := by simpa using hcid
    rw [← hcx]
    exact hsep c hcl hcid2
  refine ⟨?_, ?_, ?_⟩
  · intro t ht1 ht2
    have hmem_adds : tc ∈ addTimes clicks id t :=
      List.mem_filter.mpr ⟨htc_ts, by simpa using ht1⟩
    have hfold : tc ≤ (addTimes clicks id t).foldl max 0 :=
      le_foldl_max_of_mem 0 hmem_adds
    unfold highlightedAt
    rw [Bool.and_eq_true]
    constructor
    · simpa [List.isEmpty_iff] using List.ne_nil_of_mem hmem_adds
    · rw [List.all_eq_true]
      intro r hr
      obtain ⟨hr_mem, hr_le'⟩ := List.mem_filter.mp hr
      obtain ⟨x, hx_ts, hx_eq⟩ := List.mem_map.mp hr_mem
      have hr_le : r ≤ t := by simpa using hr_le'
      rw [decide_eq_true_eq]
      rcases hts x hx_ts with h | h | h <;> omega
  · cases hB : highlightedAt clicks id (tc + 2000) with
    | false => rfl
    | true =>
      exfalso
      have hrem : tc + 2000 ∈ remTimes clicks id (tc + 2000) :=
        List.mem_filter.mpr ⟨List.mem_map.mpr ⟨tc, htc_ts, rfl⟩, by simp⟩
      have hfold_le : (addTimes clicks id (tc + 2000)).foldl max 0 ≤ tc := by
        apply foldl_max_le (Nat.zero_le tc)
        intro x hx
        obtain ⟨hx_ts, hx_le'⟩ := List.mem_filter.mp hx
        have hx_le : x ≤ tc + 2000 := by simpa using hx_le'
        rcases hts x hx_ts with h | h | h <;> omega
      unfold highlightedAt at hB
      rw [Bool.and_eq_true, List.all_eq_true] at hB
      have := hB.2 (tc + 2000) hrem
      rw [decide_eq_true_eq] at this
      omega
  · intro clicks2 t heq
    unfold highlightedAt addTimes remTimes clickTimes
    rw [heq]

/-- C5 witness: the amended theorem instantiated at a single click on
event 1 at 1000 ms. -/
theorem C5_highlight_two_seconds_witness :
    (∀ t, 1000 ≤ t → t < 1000 + 2000 →
      highlightedAt [(1000, (Sum.inr 1 : EventId))] (Sum.inr 1 : EventId) t
        = true) ∧
    highlightedAt [(1000, (Sum.inr 1 : EventId))] (Sum.inr 1 : EventId)
      (1000 + 2000) = false ∧
    (∀ (clicks2 : List (Nat × EventId)) (t : Nat),
      [(1000, (Sum.inr 1 : EventId))].filter
          (fun c => decide (c.2 = (Sum.inr 1 : EventId))) =
        clicks2.filter (fun c => decide (c.2 = (Sum.inr 1 : EventId))) →
      highlightedAt [(1000, (Sum.inr 1 : EventId))] (Sum.inr 1 : EventId) t =
        highlightedAt clicks2 (Sum.inr 1 : EventId) t) :=
  C5_highlight_two_seconds [(1000, (Sum.inr 1 : EventId))] 1000
    (Sum.inr 1 : EventId) (by decide) (by decide)

end DailyViewModel
